import Mathlib

/-!
Shallow embedding of the guild-bank ledger of `common/bankio.py`
(classes `GuildBank`, `BankAccount`, `BankLog`).

Modelling conventions:
- Python / SQLite integers are `Int`; log ids (AUTOINCREMENT) are `Nat`.
- The SQLite `accounts` table (`user_id INTEGER PRIMARY KEY, balance`) is a list of
  rows kept in ascending `user_id` order: for a rowid table, a full scan
  (`SELECT ... FROM accounts` with no ORDER BY) returns rows in primary-key order.
- The cached in-memory `BankAccount` object and its store row are merged into one
  record: `set_balance` always writes both together, and the object cache is never
  evicted, so they only agree. The in-memory `logs` list lives inside the account
  record, while the `logs` table is a separate list (`logsTable`), because
  `BankLog.delete` removes only the table row and the two genuinely diverge.
- A kwargs metadata dict is an association list in insertion order. A value that
  `json.dumps` rejects is the constructor `MetaVal.unserializable`.
- `datetime.now()` is a monotone counter `now` stored in the bank state.
- Exceptions become `Except` results paired with the state at the moment of the
  raise (Python does not roll back mutations already performed).
- Guild membership is not modelled: every account owner is assumed to still be a
  member of the guild (the discord layer is outside the ledger core).
-/

namespace Bankio

/-- JSON-like metadata values; `unserializable` models a Python object that
`json.dumps` rejects with `TypeError` (probed in `BankLog.create`). -/
inductive MetaVal where
  | str (s : String)
  | int (n : Int)
  | bool (b : Bool)
  | null
  | unserializable
deriving DecidableEq

/-- A Python kwargs dict: association list of keys to values, insertion order. -/
abbrev Metadata := List (String × MetaVal)

/-- Whether `json.dumps` can encode this single value. -/
def MetaVal.serializable : MetaVal → Bool
  | .unserializable => false
  | _ => true

/-- The `json.dumps(metadata)` probe of `BankLog.create` succeeds iff every value
of the dict is serializable. -/
def metaSerializable (md : Metadata) : Bool := md.all fun kv => kv.2.serializable

/-- Python dict lookup (`d.get(k)` / `d[k]`): first binding of the key. -/
def mdGet (md : Metadata) (k : String) : Option MetaVal :=
  match md with
  | [] => none
  | (k2, v) :: rest => if k2 == k then some v else mdGet rest k

/-- Python dict item assignment `d[k] = v`: replaces the value in place if the key
exists, otherwise appends the new binding at the end. -/
def dictSet (md : Metadata) (k : String) (v : MetaVal) : Metadata :=
  match md with
  | [] => [(k, v)]
  | (k2, v2) :: rest => if k2 == k then (k, v) :: rest else (k2, v2) :: dictSet rest k v

/-- Error taxonomy of `bankio.py`. `logMismatch` is `LogError('Le log ne correspond
pas au compte')`; `typeError` is the plain Python `TypeError` raised when
`set_balance` receives the `reason` keyword twice (see `rollback`), an error
outside the module's own `BankError` hierarchy. -/
inductive BankErr where
  | insufficientBalance
  | negativeBalance
  | logNotFound
  | logMismatch
  | metadataNotSerializable
  | typeError
deriving DecidableEq

/-- A `BankLog`: row of the `logs` table / in-memory log object. -/
structure BankLog where
  account_id : Int
  id : Nat
  amount : Int
  timestamp : Nat
  metadata : Metadata
deriving DecidableEq

/-- One account: the store row (`user_id`, `balance`) merged with the cached
`BankAccount` object's in-memory `logs` list. -/
structure AccountState where
  user_id : Int
  balance : Int
  logs : List BankLog
deriving DecidableEq

/-- The whole bank of one guild: accounts table (ascending `user_id`), the `logs`
table, the AUTOINCREMENT counter, and the clock. -/
structure BankState where
  accounts : List AccountState
  logsTable : List BankLog
  next_log_id : Nat
  now : Nat
deriving DecidableEq

/-- Row lookup by owner id in an account list (`SELECT ... WHERE user_id = ?`). -/
def findA (l : List AccountState) (uid : Int) : Option AccountState :=
  l.find? fun a => a.user_id == uid

/-- Balance read from an account list, 0 when the row is absent (matching the
zero-balance row inserted on first access). -/
def balA (l : List AccountState) (uid : Int) : Int :=
  match findA l uid with
  | some a => a.balance
  | none => 0

/-- In-memory log list read from an account list, `[]` when absent. -/
def logsA (l : List AccountState) (uid : Int) : List BankLog :=
  match findA l uid with
  | some a => a.logs
  | none => []

/-- Sum of the balances of an account list. -/
def sumBal (l : List AccountState) : Int := (l.map AccountState.balance).sum

/-- The accounts-table invariant: rows in strictly ascending primary-key order. -/
def sortedA (l : List AccountState) : Prop :=
  l.Pairwise fun a b => a.user_id < b.user_id

/-- Lookup of an account of the bank by owner id. -/
def findAccount (st : BankState) (uid : Int) : Option AccountState :=
  findA st.accounts uid

/-- `BankAccount.balance`. -/
def bal (st : BankState) (uid : Int) : Int := balA st.accounts uid

/-- `BankAccount.logs`, the in-memory log list of the account. -/
def accLogs (st : BankState) (uid : Int) : List BankLog := logsA st.accounts uid

/-- `INSERT OR REPLACE INTO accounts (user_id, balance) VALUES (?, ?)`: replaces
the balance of an existing row, or inserts a fresh row at its primary-key
position. The in-memory `logs` list of an existing account is untouched. -/
def insertOrReplace : List AccountState → Int → Int → List AccountState
  | [], uid, v => [⟨uid, v, []⟩]
  | a :: rest, uid, v =>
    if a.user_id == uid then { a with balance := v } :: rest
    else if uid < a.user_id then ⟨uid, v, []⟩ :: a :: rest
    else a :: insertOrReplace rest uid v

/-- Account creation on first access (`__load_balance` inserting a zero row when
`SELECT` finds none). -/
def ensureAccount (st : BankState) (uid : Int) : BankState :=
  match findAccount st uid with
  | some _ => st
  | none => { st with accounts := insertOrReplace st.accounts uid 0 }

/-- Rewrites the in-memory `logs` list of account `uid` with `f`. -/
def mapAccountLogs (accts : List AccountState) (uid : Int)
    (f : List BankLog → List BankLog) : List AccountState :=
  accts.map fun a => if a.user_id == uid then { a with logs := f a.logs } else a

/-- The tail of `BankLog.create`: insert the row into the `logs` table and append
the new object to the account's in-memory list. -/
def appendLog (st : BankState) (uid : Int) (log : BankLog) : BankState :=
  { st with
    accounts := mapAccountLogs st.accounts uid fun ls => ls ++ [log],
    logsTable := st.logsTable ++ [log] }

/-- `BankLog.create(account, amount, **metadata)`: probes `json.dumps(metadata)`
first (raising `LogMetadataError` on failure, before any write), then inserts the
row with the next AUTOINCREMENT id and appends the object to `account.logs`. -/
def BankLog.create (st : BankState) (uid : Int) (amount : Int) (md : Metadata) :
    Except BankErr BankLog × BankState :=
  if metaSerializable md then
    let log : BankLog := ⟨uid, st.next_log_id, amount, st.now, md⟩
    (.ok log, appendLog { st with next_log_id := st.next_log_id + 1, now := st.now + 1 } uid log)
  else (.error .metadataNotSerializable, st)

/-- `BankAccount.set_balance(value, reason=reason, **metadata)`. Rejects a negative
value first; otherwise persists the new balance (in memory and in the store) and
only then calls `BankLog.create` with `delta = value - old_balance`, passing
`reason` as a metadata key exactly when it is non-empty. A caller-level kwargs
split guarantees `md` itself has no `"reason"` binding. -/
def set_balance (st : BankState) (uid : Int) (value : Int) (reason : String)
    (md : Metadata) : Except BankErr BankLog × BankState :=
  if value < 0 then (.error .negativeBalance, st)
  else
    let delta := value - bal st uid
    let st1 : BankState := { st with accounts := insertOrReplace st.accounts uid value }
    if reason == "" then BankLog.create st1 uid delta md
    else BankLog.create st1 uid delta (("reason", .str reason) :: md)

/-- `BankAccount.deposit(amount, ...) = set_balance(balance + amount, ...)`. -/
def deposit (st : BankState) (uid : Int) (amount : Int) (reason : String)
    (md : Metadata) : Except BankErr BankLog × BankState :=
  set_balance st uid (bal st uid + amount) reason md

/-- `BankAccount.withdraw(amount, ...)`: `AccountInsufficientBalanceError` when
`amount > balance`, else `set_balance(balance - amount, ...)`. -/
def withdraw (st : BankState) (uid : Int) (amount : Int) (reason : String)
    (md : Metadata) : Except BankErr BankLog × BankState :=
  if bal st uid < amount then (.error .insufficientBalance, st)
  else set_balance st uid (bal st uid - amount) reason md

/-- `BankAccount.fetch_log(id)`: linear scan of the in-memory `logs` list. -/
def fetch_log (st : BankState) (uid : Int) (id : Nat) : Option BankLog :=
  (accLogs st uid).find? fun l => l.id == id

/-- Marks log `logId` of account `uid` in memory with `metadata['rollback'] = True`
(the store row is not updated: the source mutates only the object's dict). -/
def markRollback (st : BankState) (uid : Int) (logId : Nat) : BankState :=
  { st with accounts := mapAccountLogs st.accounts uid fun ls =>
      ls.map fun l =>
        if l.id == logId then { l with metadata := dictSet l.metadata "rollback" (.bool true) }
        else l }

/-- `BankAccount.rollback(log)`: fetches the log from the account's own list
(`LogNotFoundError` when absent), checks it belongs to the account, sets the
in-memory `rollback` flag, then calls
`set_balance(balance - log.amount, reason='Annulation', **log.metadata)` — a call
that raises a plain `TypeError` before running when the metadata dict already
holds a `"reason"` key (duplicate keyword argument). -/
def rollback (st : BankState) (uid : Int) (logId : Nat) :
    Except BankErr BankLog × BankState :=
  match fetch_log st uid logId with
  | none => (.error .logNotFound, st)
  | some l =>
    if l.account_id == uid then
      let st1 := markRollback st uid logId
      let md1 := dictSet l.metadata "rollback" (.bool true)
      if (mdGet md1 "reason").isSome then (.error .typeError, st1)
      else set_balance st1 uid (bal st1 uid - l.amount) "Annulation" md1
    else (.error .logMismatch, st)

/-- `BankAccount.transfer(other, amount, ...)`: ensures the destination account
exists (`get_account`), checks the source balance, then evaluates
`(self.withdraw(amount, ...), other.deposit(amount, ...))` left to right; an
exception in either call propagates, leaving the mutations already made. -/
def transfer (st : BankState) (fromUid toUid : Int) (amount : Int) (reason : String)
    (md : Metadata) : Except BankErr (BankLog × BankLog) × BankState :=
  let st0 := ensureAccount st toUid
  if bal st0 fromUid < amount then (.error .insufficientBalance, st0)
  else
    match withdraw st0 fromUid amount reason md with
    | (.error e, st1) => (.error e, st1)
    | (.ok wlog, st1) =>
      match deposit st1 toUid amount reason md with
      | (.error e, st2) => (.error e, st2)
      | (.ok dlog, st2) => (.ok (wlog, dlog), st2)

/-- `GuildBank._get_bank_log(id)`: store-level lookup in the `logs` table,
`LogNotFoundError` when the row is gone. -/
def get_bank_log (st : BankState) (id : Nat) : Except BankErr BankLog :=
  match st.logsTable.find? fun l => l.id == id with
  | none => .error .logNotFound
  | some row => .ok row

/-- `BankLog.delete()`: `DELETE FROM logs WHERE id = ?`. Only the table row goes;
the in-memory object stays in its account's `logs` list. -/
def BankLog.delete (st : BankState) (logId : Nat) : BankState :=
  { st with logsTable := st.logsTable.filter fun l => !(l.id == logId) }

/-- Stable insertion step for a descending sort on `balance`: the new element goes
in front of the first element whose balance is not larger, so an element keeps its
place in front of later equal-balance elements. -/
def insertDesc (x : AccountState) : List AccountState → List AccountState
  | [] => [x]
  | y :: ys => if y.balance ≤ x.balance then x :: y :: ys else y :: insertDesc x ys

/-- Python's `sorted(accounts, key=lambda a: a.balance, reverse=True)`: a stable
sort, descending on balance, modelled as stable insertion sort. -/
def sortDesc : List AccountState → List AccountState
  | [] => []
  | x :: xs => insertDesc x (sortDesc xs)

/-- `GuildBank.get_leaderboard(limit)`: full stable descending sort of the scanned
accounts, truncated to `limit`. -/
def get_leaderboard (st : BankState) (limit : Nat) : List AccountState :=
  (sortDesc st.accounts).take limit

/-- `BankAccount.__eq__`: owner equal and balance equal (the `logs` list is not
compared). -/
def acctEqb (a b : AccountState) : Bool :=
  a.user_id == b.user_id && a.balance == b.balance

/-- Python's `account in lb` under `BankAccount.__eq__`. -/
def memAcct (l : List AccountState) (a : AccountState) : Bool :=
  l.any fun b => acctEqb b a

/-- Python's `lb.index(account)` under `BankAccount.__eq__` (first hit). -/
def idxOfAcct : List AccountState → AccountState → Nat
  | [], _ => 0
  | b :: bs, a => if acctEqb b a then 0 else idxOfAcct bs a + 1

/-- `GuildBank.accounts_count`. -/
def accounts_count (st : BankState) : Nat := st.accounts.length

/-- `GuildBank.get_account_rank(account)`: `lb.index(account) + 1` when the account
occurs in the full descending ordering, else `accounts_count`. -/
def get_account_rank (st : BankState) (acct : AccountState) : Nat :=
  let lb := sortDesc st.accounts
  if memAcct lb acct then idxOfAcct lb acct + 1 else accounts_count st

/-- `GuildBank.total_balance`: sum of all account balances. -/
def total_balance (st : BankState) : Int := sumBal st.accounts

/-- One external call into the ledger (the public `BankAccount` methods). -/
inductive BankOp where
  | depositOp (uid : Int) (amount : Int) (reason : String) (md : Metadata)
  | withdrawOp (uid : Int) (amount : Int) (reason : String) (md : Metadata)
  | setBalanceOp (uid : Int) (value : Int) (reason : String) (md : Metadata)
  | transferOp (fromUid toUid : Int) (amount : Int) (reason : String) (md : Metadata)
  | rollbackOp (uid : Int) (logId : Nat)

/-- Effect of one call on the bank state: the acting account is materialized first
(`get_account` creates it with balance 0), then the method runs; a raised error
keeps the mutations made up to the raise. -/
def stepOp (st : BankState) (op : BankOp) : BankState :=
  match op with
  | .depositOp uid a r m => (deposit (ensureAccount st uid) uid a r m).2
  | .withdrawOp uid a r m => (withdraw (ensureAccount st uid) uid a r m).2
  | .setBalanceOp uid v r m => (set_balance (ensureAccount st uid) uid v r m).2
  | .transferOp f t a r m => (transfer (ensureAccount st f) f t a r m).2
  | .rollbackOp uid i => (rollback (ensureAccount st uid) uid i).2

/-- Runs a sequence of external calls. -/
def runOps (st : BankState) (ops : List BankOp) : BankState := ops.foldl stepOp st

/-- The bank of a fresh guild: empty tables, AUTOINCREMENT starts at 1. -/
def initState : BankState := ⟨[], [], 1, 0⟩

/-- All balances of an account list are non-negative. -/
def nonnegA (l : List AccountState) : Prop := ∀ a ∈ l, 0 ≤ a.balance

/-- The metadata dict `BankLog.create` receives from `set_balance`: the `reason`
key is prepended exactly when the reason string is non-empty. -/
def mdR (r : String) (md : Metadata) : Metadata :=
  if r == "" then md else ("reason", .str r) :: md

theorem findA_cons (a : AccountState) (l : List AccountState) (uid : Int) :
    findA (a :: l) uid = if a.user_id == uid then some a else findA l uid := by
  by_cases h : a.user_id = uid <;> simp [findA, List.find?_cons, h]

theorem mapAccountLogs_cons (a : AccountState) (l : List AccountState) (uid : Int)
    (f : List BankLog → List BankLog) :
    mapAccountLogs (a :: l) uid f =
      (if a.user_id == uid then { a with logs := f a.logs } else a)
        :: mapAccountLogs l uid f := rfl

theorem sumBal_cons (a : AccountState) (l : List AccountState) :
    sumBal (a :: l) = a.balance + sumBal l := by
  simp [sumBal]

theorem findA_eq_none_of_lt (l : List AccountState) (uid : Int)
    (h : ∀ b ∈ l, uid < b.user_id) : findA l uid = none := by
  refine List.find?_eq_none.mpr fun b hb => ?_
  have := h b hb
  simp only [beq_iff_eq]
  omega

theorem mem_insertOrReplace {b : AccountState} {l : List AccountState} {uid : Int}
    {v : Int} (h : b ∈ insertOrReplace l uid v) :
    b ∈ l ∨ (b.user_id = uid ∧ b.balance = v) := by
  induction l with
  | nil =>
    simp only [insertOrReplace, List.mem_singleton] at h
    subst h; right; exact ⟨rfl, rfl⟩
  | cons a rest ih =>
    by_cases h1 : a.user_id = uid
    · simp only [insertOrReplace, h1, beq_self_eq_true, if_pos, List.mem_cons] at h
      rcases h with h | h
      · subst h
        right
        refine ⟨?_, ?_⟩ <;> simp [h1]
      · left; exact List.mem_cons_of_mem _ h
    · by_cases h2 : uid < a.user_id
      · simp only [insertOrReplace, beq_iff_eq, h1, if_neg, if_pos h2, not_false_iff,
          List.mem_cons] at h
        rcases h with h | h | h
        · subst h; right; exact ⟨rfl, rfl⟩
        · subst h; left; exact List.mem_cons_self _ _
        · left; exact List.mem_cons_of_mem _ h
      · simp only [insertOrReplace, beq_iff_eq, h1, if_neg, h2, not_false_iff,
          List.mem_cons] at h
        rcases h with h | h
        · subst h; left; exact List.mem_cons_self _ _
        · rcases ih h with h3 | h3
          · left; exact List.mem_cons_of_mem _ h3
          · right; exact h3

theorem findA_insertOrReplace_self (l : List AccountState) (uid v : Int)
    (hs : sortedA l) :
    findA (insertOrReplace l uid v) uid = some ⟨uid, v, logsA l uid⟩ := by
  induction l with
  | nil => simp [insertOrReplace, findA, logsA]
  | cons a rest ih =>
    rcases List.pairwise_cons.mp hs with ⟨ha, hrest⟩
    by_cases h1 : a.user_id = uid
    · simp only [insertOrReplace, h1, beq_self_eq_true, if_pos]
      rw [findA_cons]
      simp only [h1, beq_self_eq_true, if_pos]
      simp [logsA, findA_cons, h1]
    · by_cases h2 : uid < a.user_id
      · simp only [insertOrReplace, beq_iff_eq, h1, if_neg, if_pos h2, not_false_iff]
        rw [findA_cons]
        simp only [beq_self_eq_true, if_pos]
        have hnone : findA rest uid = none := by
          refine findA_eq_none_of_lt _ _ fun b hb => ?_
          exact lt_trans h2 (ha b hb)
        simp [logsA, findA_cons, h1, hnone]
      · simp only [insertOrReplace, beq_iff_eq, h1, if_neg, h2, not_false_iff]
        rw [findA_cons]
        simp only [beq_iff_eq, h1, if_neg, not_false_iff]
        rw [ih hrest]
        simp [logsA, findA_cons, h1]

theorem findA_insertOrReplace_other (l : List AccountState) (uid v : Int)
    {u2 : Int} (h : u2 ≠ uid) :
    findA (insertOrReplace l uid v) u2 = findA l u2 := by
  induction l with
  | nil => simp [insertOrReplace, findA, Ne.symm h]
  | cons a rest ih =>
    by_cases h1 : a.user_id = uid
    · simp only [insertOrReplace, h1, beq_self_eq_true, if_pos]
      rw [findA_cons, findA_cons]
      have : ¬ a.user_id = u2 := by rw [h1]; exact Ne.symm h
      simp [h1, this, Ne.symm h]
    · by_cases h2 : uid < a.user_id
      · simp only [insertOrReplace, beq_iff_eq, h1, if_neg, if_pos h2, not_false_iff]
        rw [findA_cons, findA_cons]
        simp [Ne.symm h]
      · simp only [insertOrReplace, beq_iff_eq, h1, if_neg, h2, not_false_iff]
        rw [findA_cons, findA_cons]
        by_cases h3 : a.user_id = u2
        · simp [h3]
        · simp [h3, ih]

theorem findA_mapAccountLogs_self (l : List AccountState) (uid : Int)
    (f : List BankLog → List BankLog) :
    findA (mapAccountLogs l uid f) uid
      = (findA l uid).map fun a => { a with logs := f a.logs } := by
  induction l with
  | nil => simp [mapAccountLogs, findA]
  | cons a rest ih =>
    rw [mapAccountLogs_cons, findA_cons, findA_cons]
    by_cases h1 : a.user_id = uid
    · simp [h1]
    · simp only [beq_iff_eq, h1, if_neg, not_false_iff, if_false]
      exact ih

theorem findA_mapAccountLogs_other (l : List AccountState) (uid : Int)
    (f : List BankLog → List BankLog) {u2 : Int} (h : u2 ≠ uid) :
    findA (mapAccountLogs l uid f) u2 = findA l u2 := by
  induction l with
  | nil => simp [mapAccountLogs, findA]
  | cons a rest ih =>
    rw [mapAccountLogs_cons, findA_cons, findA_cons]
    by_cases h1 : a.user_id = uid
    · have h4 : ¬ uid = u2 := Ne.symm h
      simp [h1, h4, ih]
    · by_cases h3 : a.user_id = u2
      · simp [h1, h3, h]
      · simp [h1, h3, h, ih]

theorem balA_insertOrReplace_self (l : List AccountState) (uid v : Int)
    (hs : sortedA l) : balA (insertOrReplace l uid v) uid = v := by
  simp [balA, findA_insertOrReplace_self l uid v hs]

theorem balA_insertOrReplace_other (l : List AccountState) (uid v : Int)
    {u2 : Int} (h : u2 ≠ uid) : balA (insertOrReplace l uid v) u2 = balA l u2 := by
  simp [balA, findA_insertOrReplace_other l uid v h]

theorem logsA_insertOrReplace_self (l : List AccountState) (uid v : Int)
    (hs : sortedA l) : logsA (insertOrReplace l uid v) uid = logsA l uid := by
  simp [logsA, findA_insertOrReplace_self l uid v hs]

theorem logsA_insertOrReplace_other (l : List AccountState) (uid v : Int)
    {u2 : Int} (h : u2 ≠ uid) : logsA (insertOrReplace l uid v) u2 = logsA l u2 := by
  simp [logsA, findA_insertOrReplace_other l uid v h]

theorem balA_mapAccountLogs (l : List AccountState) (uid : Int)
    (f : List BankLog → List BankLog) (u2 : Int) :
    balA (mapAccountLogs l uid f) u2 = balA l u2 := by
  by_cases h : u2 = uid
  · subst h
    simp only [balA, findA_mapAccountLogs_self]
    cases findA l u2 <;> rfl
  · simp [balA, findA_mapAccountLogs_other l uid f h]

theorem logsA_mapAccountLogs_self (l : List AccountState) (uid : Int)
    (f : List BankLog → List BankLog) (hex : (findA l uid).isSome) :
    logsA (mapAccountLogs l uid f) uid = f (logsA l uid) := by
  simp only [logsA, findA_mapAccountLogs_self]
  cases hfind : findA l uid
  · rw [hfind] at hex; simp at hex
  · rfl

theorem logsA_mapAccountLogs_other (l : List AccountState) (uid : Int)
    (f : List BankLog → List BankLog) {u2 : Int} (h : u2 ≠ uid) :
    logsA (mapAccountLogs l uid f) u2 = logsA l u2 := by
  simp [logsA, findA_mapAccountLogs_other l uid f h]

theorem sumBal_insertOrReplace (l : List AccountState) (uid v : Int)
    (hs : sortedA l) :
    sumBal (insertOrReplace l uid v) = sumBal l - balA l uid + v := by
  induction l with
  | nil => simp [insertOrReplace, sumBal, balA, findA]
  | cons a rest ih =>
    rcases List.pairwise_cons.mp hs with ⟨ha, hrest⟩
    by_cases h1 : a.user_id = uid
    · simp only [insertOrReplace, h1, beq_self_eq_true, if_pos]
      simp [sumBal, balA, findA_cons, h1]
      ring
    · by_cases h2 : uid < a.user_id
      · simp only [insertOrReplace, beq_iff_eq, h1, if_neg, if_pos h2, not_false_iff]
        have hnone : findA rest uid = none := by
          refine findA_eq_none_of_lt _ _ fun b hb => ?_
          exact lt_trans h2 (ha b hb)
        simp [sumBal, balA, findA_cons, h1, hnone]
        ring
      · simp only [insertOrReplace, beq_iff_eq, h1, if_neg, h2, not_false_iff]
        simp only [sumBal, List.map_cons, List.sum_cons] at ih ⊢
        rw [ih hrest]
        simp [balA, findA_cons, h1]
        ring

theorem sumBal_mapAccountLogs (l : List AccountState) (uid : Int)
    (f : List BankLog → List BankLog) :
    sumBal (mapAccountLogs l uid f) = sumBal l := by
  induction l with
  | nil => rfl
  | cons a rest ih =>
    rw [mapAccountLogs_cons, sumBal_cons, sumBal_cons, ih]
    by_cases h1 : a.user_id = uid <;> simp [h1]

theorem sorted_insertOrReplace (l : List AccountState) (uid v : Int)
    (hs : sortedA l) : sortedA (insertOrReplace l uid v) := by
  induction l with
  | nil => simp [insertOrReplace, sortedA]
  | cons a rest ih =>
    rcases List.pairwise_cons.mp hs with ⟨ha, hrest⟩
    by_cases h1 : a.user_id = uid
    · simp only [insertOrReplace, h1, beq_self_eq_true, if_pos]
      refine List.pairwise_cons.mpr ⟨fun b hb => ?_, hrest⟩
      have h6 := ha b hb
      show uid < b.user_id
      omega
    · by_cases h2 : uid < a.user_id
      · simp only [insertOrReplace, beq_iff_eq, h1, if_neg, if_pos h2, not_false_iff]
        refine List.pairwise_cons.mpr ⟨?_, hs⟩
        intro b hb
        rcases List.mem_cons.mp hb with h | h
        · subst h; exact h2
        · exact lt_trans h2 (ha b h)
      · simp only [insertOrReplace, beq_iff_eq, h1, if_neg, h2, not_false_iff]
        refine List.pairwise_cons.mpr ⟨?_, ih hrest⟩
        intro b hb
        rcases mem_insertOrReplace hb with h | h
        · exact ha b h
        · rw [h.1]
          omega

theorem sorted_mapAccountLogs (l : List AccountState) (uid : Int)
    (f : List BankLog → List BankLog) (hs : sortedA l) :
    sortedA (mapAccountLogs l uid f) := by
  unfold sortedA mapAccountLogs
  rw [List.pairwise_map]
  have e : ∀ x : AccountState,
      ((if x.user_id == uid then { x with logs := f x.logs } else x) : AccountState).user_id
        = x.user_id := by
    intro x
    by_cases h1 : x.user_id = uid <;> simp [h1]
  refine hs.imp fun {a b} hab => ?_
  rw [e a, e b]
  exact hab

theorem nonneg_insertOrReplace {l : List AccountState} {uid v : Int}
    (hl : nonnegA l) (hv : 0 ≤ v) : nonnegA (insertOrReplace l uid v) := by
  intro b hb
  rcases mem_insertOrReplace hb with h | h
  · exact hl b h
  · rw [h.2]; exact hv

theorem nonneg_mapAccountLogs {l : List AccountState} {uid : Int}
    {f : List BankLog → List BankLog} (hl : nonnegA l) :
    nonnegA (mapAccountLogs l uid f) := by
  intro b hb
  rcases List.mem_map.mp hb with ⟨a, ha, rfl⟩
  by_cases h1 : a.user_id = uid
  · simp only [h1, beq_self_eq_true, if_pos]
    exact hl a ha
  · simp only [beq_iff_eq, h1, if_neg, not_false_iff]
    exact hl a ha

theorem metaSerializable_reason (r : String) (md : Metadata) :
    metaSerializable (("reason", MetaVal.str r) :: md) = metaSerializable md := by
  simp [metaSerializable, MetaVal.serializable]

theorem metaSerializable_mdR (r : String) (md : Metadata) :
    metaSerializable (mdR r md) = metaSerializable md := by
  unfold mdR
  by_cases hr : r = "" <;> simp [hr, metaSerializable_reason]

theorem set_balance_neg (st : BankState) (uid value : Int) (r : String)
    (md : Metadata) (hv : value < 0) :
    set_balance st uid value r md = (.error .negativeBalance, st) := by
  simp [set_balance, hv]

theorem set_balance_ok_eq (st : BankState) (uid value : Int) (r : String)
    (md : Metadata) (hv : ¬ value < 0) (hmd : metaSerializable md = true) :
    set_balance st uid value r md =
      (.ok ⟨uid, st.next_log_id, value - bal st uid, st.now, mdR r md⟩,
       appendLog
         { accounts := insertOrReplace st.accounts uid value,
           logsTable := st.logsTable,
           next_log_id := st.next_log_id + 1,
           now := st.now + 1 }
         uid ⟨uid, st.next_log_id, value - bal st uid, st.now, mdR r md⟩) := by
  unfold set_balance BankLog.create
  by_cases hr : r = ""
  · simp [hv, hr, mdR, hmd]
  · simp [hv, hr, mdR, metaSerializable_reason, hmd]

theorem set_balance_mdbad_eq (st : BankState) (uid value : Int) (r : String)
    (md : Metadata) (hv : ¬ value < 0) (hmd : metaSerializable md = false) :
    set_balance st uid value r md =
      (.error .metadataNotSerializable,
       { st with accounts := insertOrReplace st.accounts uid value }) := by
  unfold set_balance BankLog.create
  by_cases hr : r = ""
  · simp [hv, hr, hmd]
  · simp [hv, hr, metaSerializable_reason, hmd]

/-- The full behaviour of a successful `set_balance`: the returned log, the new
balance, untouched other accounts, the appended in-memory and store logs, the
balance-sum shift, and preservation of the table invariant. -/
theorem set_balance_ok_spec (st : BankState) (uid value : Int) (r : String)
    (md : Metadata) (hs : sortedA st.accounts) (hv : 0 ≤ value)
    (hmd : metaSerializable md = true) :
    ∃ log S, set_balance st uid value r md = (.ok log, S)
      ∧ log.account_id = uid
      ∧ log.amount = value - bal st uid
      ∧ log.id = st.next_log_id
      ∧ log.metadata = mdR r md
      ∧ bal S uid = value
      ∧ (∀ u2, u2 ≠ uid → bal S u2 = bal st u2)
      ∧ accLogs S uid = accLogs st uid ++ [log]
      ∧ (∀ u2, u2 ≠ uid → accLogs S u2 = accLogs st u2)
      ∧ S.logsTable = st.logsTable ++ [log]
      ∧ total_balance S = total_balance st - bal st uid + value
      ∧ sortedA S.accounts := by
  have hv2 : ¬ value < 0 := not_lt.mpr hv
  rw [set_balance_ok_eq st uid value r md hv2 hmd]
  refine ⟨_, _, rfl, rfl, rfl, rfl, rfl, ?_, ?_, ?_, ?_, rfl, ?_, ?_⟩
  · simp only [bal, appendLog]
    rw [balA_mapAccountLogs, balA_insertOrReplace_self _ _ _ hs]
  · intro u2 h2
    simp only [bal, appendLog]
    rw [balA_mapAccountLogs, balA_insertOrReplace_other _ _ _ h2]
  · simp only [accLogs, appendLog]
    rw [logsA_mapAccountLogs_self _ _ _
      (by rw [findA_insertOrReplace_self _ _ _ hs]; rfl),
      logsA_insertOrReplace_self _ _ _ hs]
  · intro u2 h2
    simp only [accLogs, appendLog]
    rw [logsA_mapAccountLogs_other _ _ _ h2, logsA_insertOrReplace_other _ _ _ h2]
  · simp only [total_balance, bal, appendLog]
    rw [sumBal_mapAccountLogs, sumBal_insertOrReplace _ _ _ hs]
  · simp only [appendLog]
    exact sorted_mapAccountLogs _ _ _ (sorted_insertOrReplace _ _ _ hs)

theorem create_nonneg {st : BankState} {uid : Int} {amt : Int} {md : Metadata}
    (h : nonnegA st.accounts) :
    nonnegA ((BankLog.create st uid amt md).2).accounts := by
  unfold BankLog.create
  by_cases hmd : metaSerializable md = true
  · simp only [hmd, if_pos, appendLog]
    exact nonneg_mapAccountLogs h
  · simp only [hmd, if_neg, not_false_iff]
    exact h

theorem set_balance_nonneg {st : BankState} {uid value : Int} {r : String}
    {md : Metadata} (h : nonnegA st.accounts) :
    nonnegA ((set_balance st uid value r md).2).accounts := by
  unfold set_balance
  by_cases hv : value < 0
  · simp only [hv, if_pos]
    exact h
  · simp only [hv, if_neg, not_false_iff]
    have h1 : nonnegA (insertOrReplace st.accounts uid value) :=
      nonneg_insertOrReplace h (not_lt.mp hv)
    by_cases hr : r == ""
    · simp only [hr, if_pos]
      exact create_nonneg h1
    · simp only [hr, if_neg, not_false_iff]
      exact create_nonneg h1

theorem ensureAccount_nonneg {st : BankState} {uid : Int}
    (h : nonnegA st.accounts) : nonnegA ((ensureAccount st uid).accounts) := by
  unfold ensureAccount
  cases hfind : findAccount st uid with
  | none =>
    simp only [hfind]
    exact nonneg_insertOrReplace h le_rfl
  | some a =>
    simp only [hfind]
    exact h

theorem deposit_nonneg {st : BankState} {uid amt : Int} {r : String}
    {md : Metadata} (h : nonnegA st.accounts) :
    nonnegA ((deposit st uid amt r md).2).accounts := set_balance_nonneg h

theorem withdraw_nonneg {st : BankState} {uid amt : Int} {r : String}
    {md : Metadata} (h : nonnegA st.accounts) :
    nonnegA ((withdraw st uid amt r md).2).accounts := by
  unfold withdraw
  by_cases hc : bal st uid < amt
  · simp only [hc, if_pos]
    exact h
  · simp only [hc, if_neg, not_false_iff]
    exact set_balance_nonneg h

theorem rollback_nonneg {st : BankState} {uid : Int} {logId : Nat}
    (h : nonnegA st.accounts) :
    nonnegA ((rollback st uid logId).2).accounts := by
  unfold rollback
  cases fetch_log st uid logId with
  | none => exact h
  | some l =>
    by_cases ha : l.account_id == uid
    · simp only [ha, if_pos]
      have h1 : nonnegA ((markRollback st uid logId).accounts) := by
        unfold markRollback
        exact nonneg_mapAccountLogs h
      by_cases hk : (mdGet (dictSet l.metadata "rollback" (.bool true)) "reason").isSome
      · simp only [hk, if_pos]
        exact h1
      · simp only [hk, if_neg, not_false_iff]
        exact set_balance_nonneg h1
    · simp only [ha, if_neg, not_false_iff]
      exact h

theorem transfer_nonneg {st : BankState} {fromUid toUid amt : Int} {r : String}
    {md : Metadata} (h : nonnegA st.accounts) :
    nonnegA ((transfer st fromUid toUid amt r md).2).accounts := by
  unfold transfer
  have h0 : nonnegA ((ensureAccount st toUid).accounts) := ensureAccount_nonneg h
  by_cases hc : bal (ensureAccount st toUid) fromUid < amt
  · simp only [hc, if_pos]
    exact h0
  · simp only [hc, if_neg, not_false_iff]
    rcases hw : withdraw (ensureAccount st toUid) fromUid amt r md with ⟨res, st1⟩
    have h1 : nonnegA st1.accounts := by
      have h3 := @withdraw_nonneg (ensureAccount st toUid) fromUid amt r md h0
      rw [hw] at h3
      exact h3
    cases res with
    | error e => exact h1
    | ok wlog =>
      dsimp only
      rcases hd : deposit st1 toUid amt r md with ⟨res2, st2⟩
      have h2 : nonnegA st2.accounts := by
        have h4 := @deposit_nonneg st1 toUid amt r md h1
        rw [hd] at h4
        exact h4
      cases res2 with
      | error e => exact h2
      | ok dlog => exact h2

theorem stepOp_nonneg {st : BankState} (op : BankOp) (h : nonnegA st.accounts) :
    nonnegA ((stepOp st op).accounts) := by
  cases op with
  | depositOp uid a r m => exact deposit_nonneg (ensureAccount_nonneg h)
  | withdrawOp uid a r m => exact withdraw_nonneg (ensureAccount_nonneg h)
  | setBalanceOp uid v r m => exact set_balance_nonneg (ensureAccount_nonneg h)
  | transferOp f t a r m => exact transfer_nonneg (ensureAccount_nonneg h)
  | rollbackOp uid i => exact rollback_nonneg (ensureAccount_nonneg h)

theorem runOps_nonneg (ops : List BankOp) {st : BankState}
    (h : nonnegA st.accounts) : nonnegA ((runOps st ops).accounts) := by
  induction ops generalizing st with
  | nil => exact h
  | cons op rest ih => exact ih (stepOp_nonneg op h)

theorem findA_insertOrReplace_of_none {l : List AccountState} {uid : Int}
    (v : Int) (h : findA l uid = none) :
    findA (insertOrReplace l uid v) uid = some ⟨uid, v, []⟩ := by
  induction l with
  | nil => simp [insertOrReplace, findA]
  | cons a rest ih =>
    rw [findA_cons] at h
    by_cases h1 : a.user_id = uid
    · simp [h1] at h
    · by_cases h2 : uid < a.user_id
      · simp only [insertOrReplace, beq_iff_eq, h1, if_neg, if_pos h2, not_false_iff]
        rw [findA_cons]
        simp
      · simp only [insertOrReplace, beq_iff_eq, h1, if_neg, h2, not_false_iff]
        rw [findA_cons]
        simp only [beq_iff_eq, h1, if_neg, not_false_iff]
        simp only [beq_iff_eq, h1, if_neg, not_false_iff] at h
        exact ih h

theorem sumBal_insertOrReplace_of_none {l : List AccountState} {uid : Int}
    (v : Int) (h : findA l uid = none) :
    sumBal (insertOrReplace l uid v) = sumBal l + v := by
  induction l with
  | nil => simp [insertOrReplace, sumBal]
  | cons a rest ih =>
    rw [findA_cons] at h
    by_cases h1 : a.user_id = uid
    · simp [h1] at h
    · simp only [beq_iff_eq, h1, if_neg, not_false_iff] at h
      by_cases h2 : uid < a.user_id
      · simp only [insertOrReplace, beq_iff_eq, h1, if_neg, if_pos h2, not_false_iff]
        rw [sumBal_cons, sumBal_cons]
        show v + (a.balance + sumBal rest) = a.balance + sumBal rest + v
        ring
      · simp only [insertOrReplace, beq_iff_eq, h1, if_neg, h2, not_false_iff]
        rw [sumBal_cons, sumBal_cons, ih h]
        ring

theorem bal_ensureAccount (st : BankState) (u v : Int) :
    bal (ensureAccount st u) v = bal st v := by
  unfold ensureAccount
  cases hfind : findAccount st u with
  | some a => simp [hfind]
  | none =>
    simp only [hfind]
    by_cases h : v = u
    · subst h
      show balA (insertOrReplace st.accounts v 0) v = bal st v
      rw [balA, findA_insertOrReplace_of_none 0 hfind]
      unfold bal balA
      rw [show findA st.accounts v = none from hfind]
    · show balA (insertOrReplace st.accounts u 0) v = bal st v
      rw [balA_insertOrReplace_other _ _ _ h]
      rfl

theorem accLogs_ensureAccount (st : BankState) (u v : Int) :
    accLogs (ensureAccount st u) v = accLogs st v := by
  unfold ensureAccount
  cases hfind : findAccount st u with
  | some a => simp [hfind]
  | none =>
    simp only [hfind]
    by_cases h : v = u
    · subst h
      show logsA (insertOrReplace st.accounts v 0) v = accLogs st v
      rw [logsA, findA_insertOrReplace_of_none 0 hfind]
      unfold accLogs logsA
      rw [show findA st.accounts v = none from hfind]
    · show logsA (insertOrReplace st.accounts u 0) v = accLogs st v
      rw [logsA_insertOrReplace_other _ _ _ h]
      rfl

theorem total_balance_ensureAccount (st : BankState) (u : Int) :
    total_balance (ensureAccount st u) = total_balance st := by
  unfold ensureAccount
  cases hfind : findAccount st u with
  | some a => simp [hfind]
  | none =>
    simp only [hfind]
    show sumBal (insertOrReplace st.accounts u 0) = total_balance st
    rw [sumBal_insertOrReplace_of_none 0 hfind]
    simp [total_balance]

theorem sorted_ensureAccount (st : BankState) (u : Int)
    (hs : sortedA st.accounts) : sortedA ((ensureAccount st u).accounts) := by
  unfold ensureAccount
  cases hfind : findAccount st u with
  | some a => simp only [hfind]; exact hs
  | none =>
    simp only [hfind]
    exact sorted_insertOrReplace _ _ _ hs

theorem logsTable_ensureAccount (st : BankState) (u : Int) :
    (ensureAccount st u).logsTable = st.logsTable := by
  unfold ensureAccount
  cases hfind : findAccount st u with
  | some a => simp [hfind]
  | none => simp only [hfind]

theorem set_balance_ok_inv {st S : BankState} {uid value : Int} {r : String}
    {md : Metadata} {log : BankLog}
    (h : set_balance st uid value r md = (.ok log, S)) :
    0 ≤ value ∧ metaSerializable md = true := by
  by_cases hv : value < 0
  · rw [set_balance_neg _ _ _ _ _ hv] at h
    simp at h
  · by_cases hmd : metaSerializable md = true
    · exact ⟨not_lt.mp hv, hmd⟩
    · rw [set_balance_mdbad_eq _ _ _ _ _ hv (Bool.eq_false_iff.mpr hmd)] at h
      simp at h

/-- C1: in every state reachable from a fresh bank by any sequence of deposit,
withdraw, set_balance, transfer and rollback calls — successful or failing —
every account's balance is at least 0. -/
theorem C1_balance_nonneg (ops : List BankOp) :
    ∀ a ∈ (runOps initState ops).accounts, 0 ≤ a.balance := by
  have h : nonnegA initState.accounts := by
    intro a ha
    cases ha
  exact runOps_nonneg ops h

/-- C1 witness: after a concrete deposit of 100 the resulting account is in the
reachable state and the theorem yields its non-negativity. -/
theorem C1_balance_nonneg_witness :
    0 ≤ (⟨1, 100, [⟨1, 1, 100, 0, [("reason", MetaVal.str "daily")]⟩]⟩ : AccountState).balance :=
  C1_balance_nonneg [.depositOp 1 100 "daily" []]
    ⟨1, 100, [⟨1, 1, 100, 0, [("reason", MetaVal.str "daily")]⟩]⟩ (by decide)

/-- C2: for distinct accounts A and B and an amount at most A's balance, a
successful transfer moves exactly `amount` from A to B, keeps the sum of all
balances of the scope unchanged, and returns the withdraw log (on A, delta
`-amount`) paired with the deposit log (on B, delta `amount`). -/
theorem C2_transfer_conservation (st : BankState) (A B amt : Int) (r : String)
    (md : Metadata) (w d : BankLog) (S : BankState)
    (hs : sortedA st.accounts) (hAB : A ≠ B) (hamt : amt ≤ bal st A)
    (h : transfer st A B amt r md = (.ok (w, d), S)) :
    bal S A = bal st A - amt
      ∧ bal S B = bal st B + amt
      ∧ total_balance S = total_balance st
      ∧ w.account_id = A ∧ w.amount = -amt
      ∧ d.account_id = B ∧ d.amount = amt := by
  unfold transfer at h
  have hbal0 : bal (ensureAccount st B) A = bal st A := bal_ensureAccount st B A
  have hc : ¬ bal (ensureAccount st B) A < amt := by
    rw [hbal0]
    exact not_lt.mpr hamt
  rw [if_neg hc] at h
  rcases hw : withdraw (ensureAccount st B) A amt r md with ⟨res, st1⟩
  rw [hw] at h
  cases res with
  | error e => simp at h
  | ok wl =>
    dsimp only at h
    rcases hd : deposit st1 B amt r md with ⟨res2, st2⟩
    rw [hd] at h
    cases res2 with
    | error e => simp at h
    | ok dl =>
      dsimp only at h
      simp only [Prod.mk.injEq, Except.ok.injEq] at h
      obtain ⟨⟨hwd, hdd⟩, hS⟩ := h
      have hw2 : set_balance (ensureAccount st B) A (bal (ensureAccount st B) A - amt) r md
          = (.ok wl, st1) := by
        rw [withdraw, if_neg hc] at hw
        exact hw
      obtain ⟨hv1, hmd1⟩ := set_balance_ok_inv hw2
      obtain ⟨log1, S1, heq1, hacc1, hamt1, _, _, hbalS1, hbalO1, _, _, _, htot1, hsort1⟩ :=
        set_balance_ok_spec (ensureAccount st B) A (bal (ensureAccount st B) A - amt) r md
          (sorted_ensureAccount st B hs) hv1 hmd1
      rw [hw2] at heq1
      simp only [Prod.mk.injEq, Except.ok.injEq] at heq1
      obtain ⟨hlog1, hS1⟩ := heq1
      have hd2 : set_balance st1 B (bal st1 B + amt) r md = (.ok dl, st2) := by
        rw [deposit] at hd
        exact hd
      obtain ⟨hv2, hmd2⟩ := set_balance_ok_inv hd2
      have hsort1b : sortedA st1.accounts := hS1 ▸ hsort1
      obtain ⟨log2, S2, heq2, hacc2, hamt2, _, _, hbalS2, hbalO2, _, _, _, htot2, _⟩ :=
        set_balance_ok_spec st1 B (bal st1 B + amt) r md hsort1b hv2 hmd2
      rw [hd2] at heq2
      simp only [Prod.mk.injEq, Except.ok.injEq] at heq2
      obtain ⟨hlog2, hS2⟩ := heq2
      have hb1B : bal st1 B = bal st B := by
        rw [hS1, hbalO1 B (Ne.symm hAB), bal_ensureAccount]
      have hb1A : bal st1 A = bal st A - amt := by
        rw [hS1, hbalS1, hbal0]
      have hSs : S = st2 := hS.symm
      refine ⟨?_, ?_, ?_, ?_, ?_, ?_, ?_⟩
      · rw [hSs, hS2, hbalO2 A hAB, hb1A]
      · rw [hSs, hS2, hbalS2, hb1B]
      · rw [hSs, hS2, htot2, hS1, htot1, total_balance_ensureAccount]
        ring
      · rw [← hwd, hlog1, hacc1]
      · rw [← hwd, hlog1, hamt1, hbal0]
        ring
      · rw [← hdd, hlog2, hacc2]
      · rw [← hdd, hlog2, hamt2]
        ring

/-- C2 witness: a concrete successful transfer of 40 from account 1 (balance 100)
to the fresh account 2. -/
theorem C2_transfer_conservation_witness :
    bal ⟨[⟨1, 60, [⟨1, 5, -40, 7, []⟩]⟩, ⟨2, 40, [⟨2, 6, 40, 8, []⟩]⟩],
          [⟨1, 5, -40, 7, []⟩, ⟨2, 6, 40, 8, []⟩], 7, 9⟩ 1
        = bal ⟨[⟨1, 100, []⟩], [], 5, 7⟩ 1 - 40
      ∧ bal ⟨[⟨1, 60, [⟨1, 5, -40, 7, []⟩]⟩, ⟨2, 40, [⟨2, 6, 40, 8, []⟩]⟩],
          [⟨1, 5, -40, 7, []⟩, ⟨2, 6, 40, 8, []⟩], 7, 9⟩ 2
        = bal ⟨[⟨1, 100, []⟩], [], 5, 7⟩ 2 + 40
      ∧ total_balance ⟨[⟨1, 60, [⟨1, 5, -40, 7, []⟩]⟩, ⟨2, 40, [⟨2, 6, 40, 8, []⟩]⟩],
          [⟨1, 5, -40, 7, []⟩, ⟨2, 6, 40, 8, []⟩], 7, 9⟩
        = total_balance ⟨[⟨1, 100, []⟩], [], 5, 7⟩
      ∧ (⟨1, 5, -40, 7, []⟩ : BankLog).account_id = 1
      ∧ (⟨1, 5, -40, 7, []⟩ : BankLog).amount = -40
      ∧ (⟨2, 6, 40, 8, []⟩ : BankLog).account_id = 2
      ∧ (⟨2, 6, 40, 8, []⟩ : BankLog).amount = 40 :=
  C2_transfer_conservation ⟨[⟨1, 100, []⟩], [], 5, 7⟩ 1 2 40 "" []
    ⟨1, 5, -40, 7, []⟩ ⟨2, 6, 40, 8, []⟩
    ⟨[⟨1, 60, [⟨1, 5, -40, 7, []⟩]⟩, ⟨2, 40, [⟨2, 6, 40, 8, []⟩]⟩],
      [⟨1, 5, -40, 7, []⟩, ⟨2, 6, 40, 8, []⟩], 7, 9⟩
    (by unfold sortedA; decide) (by decide) (by decide) (by rfl)

theorem set_balance_no_insufficient (st : BankState) (uid value : Int)
    (r : String) (md : Metadata) :
    (set_balance st uid value r md).1 ≠ .error .insufficientBalance := by
  by_cases hv : value < 0
  · rw [set_balance_neg _ _ _ _ _ hv]
    simp
  · by_cases hmd : metaSerializable md = true
    · rw [set_balance_ok_eq _ _ _ _ _ hv hmd]
      simp
    · rw [set_balance_mdbad_eq _ _ _ _ _ hv (Bool.eq_false_iff.mpr hmd)]
      simp

/-- C3: `set_balance(value)` fails with NegativeBalance when `value < 0`, leaving
the whole bank state (balance and log sequence included) unchanged; for a
non-negative value with encodable metadata it persists `value`, creates a log
whose amount is `value` minus the old balance, appends it to the account's
in-memory log sequence, and returns it. -/
theorem C3_set_balance_spec (st : BankState) (uid value : Int) (r : String)
    (md : Metadata) (hs : sortedA st.accounts) :
    (value < 0 → set_balance st uid value r md = (.error .negativeBalance, st))
      ∧ (0 ≤ value → metaSerializable md = true →
          ∃ log S, set_balance st uid value r md = (.ok log, S)
            ∧ log.amount = value - bal st uid
            ∧ bal S uid = value
            ∧ accLogs S uid = accLogs st uid ++ [log]) := by
  constructor
  · intro hv
    exact set_balance_neg _ _ _ _ _ hv
  · intro hv hmd
    obtain ⟨log, S, heq, _, hamt, _, _, hbalS, _, hlogs, _, _, _, _⟩ :=
      set_balance_ok_spec st uid value r md hs hv hmd
    exact ⟨log, S, heq, hamt, hbalS, hlogs⟩

/-- C3 witness: on an account with balance 10, `set_balance (-1)` fails with
NegativeBalance leaving the state intact, and `set_balance 25` creates and
returns the log of delta 15. -/
theorem C3_set_balance_spec_witness :
    set_balance ⟨[⟨1, 10, []⟩], [], 1, 0⟩ 1 (-1) "" []
        = (.error .negativeBalance, ⟨[⟨1, 10, []⟩], [], 1, 0⟩)
      ∧ (∃ log S, set_balance ⟨[⟨1, 10, []⟩], [], 1, 0⟩ 1 25 "" [] = (.ok log, S)
          ∧ log.amount = 25 - bal ⟨[⟨1, 10, []⟩], [], 1, 0⟩ 1
          ∧ bal S 1 = 25
          ∧ accLogs S 1 = accLogs ⟨[⟨1, 10, []⟩], [], 1, 0⟩ 1 ++ [log]) :=
  ⟨(C3_set_balance_spec ⟨[⟨1, 10, []⟩], [], 1, 0⟩ 1 (-1) "" []
      (by unfold sortedA; decide)).1 (by decide),
   (C3_set_balance_spec ⟨[⟨1, 10, []⟩], [], 1, 0⟩ 1 25 "" []
      (by unfold sortedA; decide)).2 (by decide) (by rfl)⟩

/-- C4: withdraw fails with InsufficientBalance exactly when the amount exceeds
the balance, a failure leaves the whole state unchanged, and for an amount within
the balance `withdraw(amount)` is literally `deposit(-amount)` (same result,
same new state, hence same log amount and same resulting balance). -/
theorem C4_withdraw_spec (st : BankState) (uid amt : Int) (r : String)
    (md : Metadata) :
    ((withdraw st uid amt r md).1 = .error .insufficientBalance ↔ bal st uid < amt)
      ∧ (bal st uid < amt → withdraw st uid amt r md = (.error .insufficientBalance, st))
      ∧ (amt ≤ bal st uid → withdraw st uid amt r md = deposit st uid (-amt) r md) := by
  refine ⟨⟨?_, ?_⟩, ?_, ?_⟩
  · intro h
    by_contra hc
    rw [withdraw, if_neg hc] at h
    exact set_balance_no_insufficient st uid (bal st uid - amt) r md h
  · intro hc
    rw [withdraw, if_pos hc]
  · intro hc
    rw [withdraw, if_pos hc]
  · intro hc
    rw [withdraw, if_neg (not_lt.mpr hc), deposit]
    have h : bal st uid - amt = bal st uid + -amt := by ring
    rw [h]

/-- C4 witness: on an account with balance 10, withdrawing 11 fails with
InsufficientBalance and leaves the state unchanged, while withdrawing 3 equals
depositing -3. -/
theorem C4_withdraw_spec_witness :
    withdraw ⟨[⟨1, 10, []⟩], [], 1, 0⟩ 1 11 "" []
        = (.error .insufficientBalance, ⟨[⟨1, 10, []⟩], [], 1, 0⟩)
      ∧ withdraw ⟨[⟨1, 10, []⟩], [], 1, 0⟩ 1 3 "" []
        = deposit ⟨[⟨1, 10, []⟩], [], 1, 0⟩ 1 (-3) "" [] :=
  ⟨(C4_withdraw_spec ⟨[⟨1, 10, []⟩], [], 1, 0⟩ 1 11 "" []).2.1 (by decide),
   (C4_withdraw_spec ⟨[⟨1, 10, []⟩], [], 1, 0⟩ 1 3 "" []).2.2 (by decide)⟩

theorem mdGet_dictSet_other (md : Metadata) (k : String) (v : MetaVal)
    {k2 : String} (h : k2 ≠ k) : mdGet (dictSet md k v) k2 = mdGet md k2 := by
  induction md with
  | nil => simp [dictSet, mdGet, Ne.symm h]
  | cons kv rest ih =>
    rcases kv with ⟨k3, v3⟩
    by_cases h3 : k3 = k
    · simp only [dictSet, h3, beq_self_eq_true, if_pos]
      simp [mdGet, Ne.symm h, h3]
    · simp only [dictSet, beq_iff_eq, h3, if_neg, not_false_iff]
      by_cases h4 : k3 = k2
      · simp [mdGet, h4]
      · simp [mdGet, h4, ih]

theorem metaSerializable_dictSet (md : Metadata) (k : String) (v : MetaVal)
    (hv : v.serializable = true) (hmd : metaSerializable md = true) :
    metaSerializable (dictSet md k v) = true := by
  induction md with
  | nil => simp [dictSet, metaSerializable, hv]
  | cons kv rest ih =>
    rcases kv with ⟨k3, v3⟩
    simp only [metaSerializable, List.all_cons, Bool.and_eq_true] at hmd
    by_cases h3 : k3 = k
    · simp only [dictSet, h3, beq_self_eq_true, if_pos]
      simp [metaSerializable, hv, hmd.2]
    · simp only [dictSet, beq_iff_eq, h3, if_neg, not_false_iff]
      simp only [metaSerializable, List.all_cons, Bool.and_eq_true]
      exact ⟨hmd.1, ih hmd.2⟩

theorem fetch_log_mem {st : BankState} {uid : Int} {i : Nat} {l : BankLog}
    (hf : fetch_log st uid i = some l) : l ∈ accLogs st uid ∧ l.id = i := by
  unfold fetch_log at hf
  refine ⟨List.mem_of_find?_eq_some hf, ?_⟩
  have h2 := List.find?_some hf
  simpa using h2

theorem findA_isSome_of_fetch {st : BankState} {uid : Int} {i : Nat} {l : BankLog}
    (hf : fetch_log st uid i = some l) : (findA st.accounts uid).isSome := by
  unfold fetch_log accLogs logsA at hf
  cases h : findA st.accounts uid with
  | none =>
    rw [h] at hf
    simp at hf
  | some a => rfl

theorem bal_markRollback (st : BankState) (uid : Int) (logId : Nat) (u2 : Int) :
    bal (markRollback st uid logId) u2 = bal st u2 :=
  balA_mapAccountLogs st.accounts uid _ u2

theorem sorted_markRollback (st : BankState) (uid : Int) (logId : Nat)
    (hs : sortedA st.accounts) : sortedA ((markRollback st uid logId).accounts) :=
  sorted_mapAccountLogs st.accounts uid _ hs

theorem total_balance_markRollback (st : BankState) (uid : Int) (logId : Nat) :
    total_balance (markRollback st uid logId) = total_balance st :=
  sumBal_mapAccountLogs st.accounts uid _

theorem accLogs_markRollback_self (st : BankState) (uid : Int) (logId : Nat)
    (hex : (findA st.accounts uid).isSome) :
    accLogs (markRollback st uid logId) uid
      = (accLogs st uid).map fun l2 =>
          if l2.id == logId
          then { l2 with metadata := dictSet l2.metadata "rollback" (.bool true) }
          else l2 :=
  logsA_mapAccountLogs_self st.accounts uid _ hex

theorem rollback_eq_notFound {st : BankState} {uid : Int} {logId : Nat}
    (hf : fetch_log st uid logId = none) :
    rollback st uid logId = (.error .logNotFound, st) := by
  unfold rollback
  rw [hf]

theorem rollback_eq_typeError {st : BankState} {uid : Int} {logId : Nat}
    {l : BankLog} (hf : fetch_log st uid logId = some l) (ha : l.account_id = uid)
    (hr : (mdGet l.metadata "reason").isSome = true) :
    rollback st uid logId = (.error .typeError, markRollback st uid logId) := by
  unfold rollback
  rw [hf]
  dsimp only
  rw [if_pos (by simp [ha]),
    mdGet_dictSet_other l.metadata "rollback" (.bool true) (by decide), if_pos hr]

theorem rollback_eq_set_balance {st : BankState} {uid : Int} {logId : Nat}
    {l : BankLog} (hf : fetch_log st uid logId = some l) (ha : l.account_id = uid)
    (hr : mdGet l.metadata "reason" = none) :
    rollback st uid logId
      = set_balance (markRollback st uid logId) uid
          (bal (markRollback st uid logId) uid - l.amount) "Annulation"
          (dictSet l.metadata "rollback" (.bool true)) := by
  unfold rollback
  rw [hf]
  dsimp only
  rw [if_pos (by simp [ha]),
    mdGet_dictSet_other l.metadata "rollback" (.bool true) (by decide)]
  rw [if_neg (by simp [hr])]

/-- C10: rollback of a log whose metadata holds a `reason` key (any log created
with a non-empty reason) aborts with a plain Python `TypeError` — `set_balance`
receives the `reason` keyword twice — an error outside the module's `BankError`
taxonomy, and the balance is unchanged; conversely a successful rollback is only
possible when the fetched log's metadata has no `reason` key. -/
theorem C10_rollback_reason_clash (st : BankState) (uid : Int) (logId : Nat)
    (l : BankLog) (hf : fetch_log st uid logId = some l)
    (ha : l.account_id = uid) :
    ((mdGet l.metadata "reason").isSome = true →
        (rollback st uid logId).1 = .error .typeError
          ∧ bal (rollback st uid logId).2 uid = bal st uid)
      ∧ (∀ log2 S, rollback st uid logId = (.ok log2, S) →
          mdGet l.metadata "reason" = none) := by
  constructor
  · intro hr
    rw [rollback_eq_typeError hf ha hr]
    exact ⟨rfl, bal_markRollback st uid logId uid⟩
  · intro log2 S hok
    cases hr : mdGet l.metadata "reason" with
    | none => rfl
    | some v =>
      rw [rollback_eq_typeError hf ha (by simp [hr])] at hok
      simp at hok

/-- C10 witness: rolling back a log carrying `reason = "daily"` fails with the
TypeError and leaves the balance at 100, and the successful rollback of a
reason-free log implies its metadata had no `reason` key. -/
theorem C10_rollback_reason_clash_witness :
    ((rollback ⟨[⟨1, 100, [⟨1, 1, 100, 0, [("reason", MetaVal.str "daily")]⟩]⟩],
        [⟨1, 1, 100, 0, [("reason", MetaVal.str "daily")]⟩], 2, 1⟩ 1 1).1
      = .error .typeError
    ∧ bal (rollback ⟨[⟨1, 100, [⟨1, 1, 100, 0, [("reason", MetaVal.str "daily")]⟩]⟩],
        [⟨1, 1, 100, 0, [("reason", MetaVal.str "daily")]⟩], 2, 1⟩ 1 1).2 1
      = bal ⟨[⟨1, 100, [⟨1, 1, 100, 0, [("reason", MetaVal.str "daily")]⟩]⟩],
        [⟨1, 1, 100, 0, [("reason", MetaVal.str "daily")]⟩], 2, 1⟩ 1) :=
  (C10_rollback_reason_clash
    ⟨[⟨1, 100, [⟨1, 1, 100, 0, [("reason", MetaVal.str "daily")]⟩]⟩],
      [⟨1, 1, 100, 0, [("reason", MetaVal.str "daily")]⟩], 2, 1⟩ 1 1
    ⟨1, 1, 100, 0, [("reason", MetaVal.str "daily")]⟩ (by rfl) (by rfl)).1 (by rfl)

/-- C5 counterexample: the inner `set_balance` of a rollback is called with
reason `'Annulation'`, not `"rollback"` as the claim states — the new log of a
concrete successful rollback carries metadata `reason = "Annulation"`. -/
theorem C5_rollback_counterexample :
    (rollback ⟨[⟨1, 50, [⟨1, 1, 50, 0, []⟩]⟩], [⟨1, 1, 50, 0, []⟩], 2, 3⟩ 1 1).1
        = .ok ⟨1, 2, -50, 3, [("reason", .str "Annulation"), ("rollback", .bool true)]⟩
      ∧ mdGet [("reason", MetaVal.str "Annulation"), ("rollback", MetaVal.bool true)] "reason"
        ≠ some (.str "rollback") := by
  constructor
  · rfl
  · decide

/-- C5 amended: rollback fails with LogNotFound (state untouched) when the log id
is not among the account's own logs — which covers logs of other accounts; for a
log of the account whose metadata has no `reason` key (otherwise the call dies
with a TypeError, see the companion C10 theorem), with encodable metadata and a
non-negative resulting balance, it marks the in-memory log with `rollback=true`,
calls `set_balance(balance - amount)` with reason `"Annulation"` (not
`"rollback"`), and creates a new log of amount `-d` restoring the pre-log
balance; the original log keeps its amount and is removed neither from the
account's log list nor from the store. -/
theorem C5_rollback_amended (st : BankState) (uid : Int) (logId : Nat) :
    (fetch_log st uid logId = none → rollback st uid logId = (.error .logNotFound, st))
      ∧ (∀ l, fetch_log st uid logId = some l → l.account_id = uid →
          mdGet l.metadata "reason" = none →
          metaSerializable l.metadata = true →
          0 ≤ bal st uid - l.amount →
          sortedA st.accounts →
          ∃ log2 S, rollback st uid logId = (.ok log2, S)
            ∧ log2.amount = -l.amount
            ∧ bal S uid = bal st uid - l.amount
            ∧ log2.metadata
                = ("reason", .str "Annulation") :: dictSet l.metadata "rollback" (.bool true)
            ∧ S.logsTable = st.logsTable ++ [log2]
            ∧ { l with metadata := dictSet l.metadata "rollback" (.bool true) }
                ∈ accLogs S uid) := by
  constructor
  · intro hf
    exact rollback_eq_notFound hf
  · intro l hf ha hr hser hnn hs
    rw [rollback_eq_set_balance hf ha hr]
    have hbalM : bal (markRollback st uid logId) uid = bal st uid :=
      bal_markRollback st uid logId uid
    have hsM : sortedA ((markRollback st uid logId).accounts) :=
      sorted_markRollback st uid logId hs
    have hserM : metaSerializable (dictSet l.metadata "rollback" (.bool true)) = true :=
      metaSerializable_dictSet _ _ _ rfl hser
    have hv : 0 ≤ bal (markRollback st uid logId) uid - l.amount := by
      rw [hbalM]
      exact hnn
    obtain ⟨log2, S, heq, _, hamt, _, hmeta, hbalS, _, hlogsS, _, htab, _, _⟩ :=
      set_balance_ok_spec (markRollback st uid logId) uid
        (bal (markRollback st uid logId) uid - l.amount) "Annulation"
        (dictSet l.metadata "rollback" (.bool true)) hsM hv hserM
    refine ⟨log2, S, heq, ?_, ?_, ?_, ?_, ?_⟩
    · rw [hamt]
      ring
    · rw [hbalS, hbalM]
    · rw [hmeta]
      rfl
    · rw [htab]
      rfl
    · rw [hlogsS]
      refine List.mem_append_left _ ?_
      obtain ⟨hmem, hlid⟩ := fetch_log_mem hf
      rw [accLogs_markRollback_self st uid logId (findA_isSome_of_fetch hf)]
      refine List.mem_map.mpr ⟨l, hmem, ?_⟩
      simp [hlid]

/-- C5 witness: on an account with one reason-free log of amount 50, rollback of
an absent id fails with LogNotFound, and rollback of log 1 produces the
balancing log. -/
theorem C5_rollback_amended_witness :
    rollback ⟨[⟨1, 50, [⟨1, 1, 50, 0, []⟩]⟩], [⟨1, 1, 50, 0, []⟩], 2, 3⟩ 1 99
        = (.error .logNotFound, ⟨[⟨1, 50, [⟨1, 1, 50, 0, []⟩]⟩], [⟨1, 1, 50, 0, []⟩], 2, 3⟩)
      ∧ (∃ log2 S,
          rollback ⟨[⟨1, 50, [⟨1, 1, 50, 0, []⟩]⟩], [⟨1, 1, 50, 0, []⟩], 2, 3⟩ 1 1
              = (.ok log2, S)
            ∧ log2.amount = -(⟨1, 1, 50, 0, []⟩ : BankLog).amount
            ∧ bal S 1 = bal ⟨[⟨1, 50, [⟨1, 1, 50, 0, []⟩]⟩], [⟨1, 1, 50, 0, []⟩], 2, 3⟩ 1
                - (⟨1, 1, 50, 0, []⟩ : BankLog).amount
            ∧ log2.metadata = ("reason", .str "Annulation")
                :: dictSet (⟨1, 1, 50, 0, []⟩ : BankLog).metadata "rollback" (.bool true)
            ∧ S.logsTable
                = (⟨[⟨1, 50, [⟨1, 1, 50, 0, []⟩]⟩], [⟨1, 1, 50, 0, []⟩], 2, 3⟩
                    : BankState).logsTable ++ [log2]
            ∧ { (⟨1, 1, 50, 0, []⟩ : BankLog) with
                metadata := dictSet (⟨1, 1, 50, 0, []⟩ : BankLog).metadata "rollback"
                  (.bool true) } ∈ accLogs S 1) :=
  ⟨(C5_rollback_amended ⟨[⟨1, 50, [⟨1, 1, 50, 0, []⟩]⟩], [⟨1, 1, 50, 0, []⟩], 2, 3⟩ 1 99).1
      (by rfl),
   (C5_rollback_amended ⟨[⟨1, 50, [⟨1, 1, 50, 0, []⟩]⟩], [⟨1, 1, 50, 0, []⟩], 2, 3⟩ 1 1).2
      ⟨1, 1, 50, 0, []⟩ (by rfl) (by rfl) (by rfl) (by rfl) (by decide)
      (by unfold sortedA; decide)⟩

theorem set_balance_mdbad_spec (st : BankState) (uid v : Int) (r : String)
    (md : Metadata) (hs : sortedA st.accounts) (hv : 0 ≤ v)
    (hmd : metaSerializable md = false) :
    (set_balance st uid v r md).1 = .error .metadataNotSerializable
      ∧ (set_balance st uid v r md).2.logsTable = st.logsTable
      ∧ accLogs (set_balance st uid v r md).2 uid = accLogs st uid
      ∧ bal (set_balance st uid v r md).2 uid = v := by
  rw [set_balance_mdbad_eq _ _ _ _ _ (not_lt.mpr hv) hmd]
  refine ⟨rfl, rfl, ?_, ?_⟩
  · show logsA (insertOrReplace st.accounts uid v) uid = accLogs st uid
    exact logsA_insertOrReplace_self _ _ _ hs
  · show balA (insertOrReplace st.accounts uid v) uid = v
    exact balA_insertOrReplace_self _ _ _ hs

/-- C6 counterexample: a deposit with metadata `json.dumps` cannot encode does
fail with MetadataNotSerializable and inserts no log, but the claim that the
balance is unchanged is false — the balance was already persisted (10 became 15)
before the log-creation step failed. -/
theorem C6_metadata_counterexample :
    (deposit ⟨[⟨1, 10, []⟩], [], 1, 0⟩ 1 5 "" [("k", MetaVal.unserializable)]).1
        = .error .metadataNotSerializable
      ∧ bal (deposit ⟨[⟨1, 10, []⟩], [], 1, 0⟩ 1 5 "" [("k", MetaVal.unserializable)]).2 1
        = 15
      ∧ bal (deposit ⟨[⟨1, 10, []⟩], [], 1, 0⟩ 1 5 "" [("k", MetaVal.unserializable)]).2 1
        ≠ bal ⟨[⟨1, 10, []⟩], [], 1, 0⟩ 1 := by
  refine ⟨rfl, rfl, by decide⟩

/-- C6 amended: with metadata that cannot be serialized, deposit, withdraw and
set_balance all fail with MetadataNotSerializable and insert no log row (store
and in-memory log sequences unchanged), but the operation is aborted only after
the balance write: the account's balance has already been set to the would-be
new value, in memory and in the store. -/
theorem C6_metadata_not_serializable (st : BankState) (uid v amt : Int)
    (r : String) (md : Metadata) (hs : sortedA st.accounts)
    (hmd : metaSerializable md = false) :
    (0 ≤ v →
        (set_balance st uid v r md).1 = .error .metadataNotSerializable
          ∧ (set_balance st uid v r md).2.logsTable = st.logsTable
          ∧ accLogs (set_balance st uid v r md).2 uid = accLogs st uid
          ∧ bal (set_balance st uid v r md).2 uid = v)
      ∧ (0 ≤ bal st uid + amt →
          (deposit st uid amt r md).1 = .error .metadataNotSerializable
            ∧ (deposit st uid amt r md).2.logsTable = st.logsTable
            ∧ accLogs (deposit st uid amt r md).2 uid = accLogs st uid
            ∧ bal (deposit st uid amt r md).2 uid = bal st uid + amt)
      ∧ (amt ≤ bal st uid → 0 ≤ bal st uid - amt →
          (withdraw st uid amt r md).1 = .error .metadataNotSerializable
            ∧ (withdraw st uid amt r md).2.logsTable = st.logsTable
            ∧ accLogs (withdraw st uid amt r md).2 uid = accLogs st uid
            ∧ bal (withdraw st uid amt r md).2 uid = bal st uid - amt) := by
  refine ⟨?_, ?_, ?_⟩
  · intro hv
    exact set_balance_mdbad_spec st uid v r md hs hv hmd
  · intro hv
    exact set_balance_mdbad_spec st uid (bal st uid + amt) r md hs hv hmd
  · intro hle hv
    have h := set_balance_mdbad_spec st uid (bal st uid - amt) r md hs hv hmd
    rw [withdraw, if_neg (not_lt.mpr hle)]
    exact h

/-- C6 witness: concrete unserializable metadata on an account with balance 10:
set_balance 7, deposit 5 and withdraw 5 all fail after moving the balance. -/
theorem C6_metadata_not_serializable_witness :
    ((set_balance ⟨[⟨1, 10, []⟩], [], 1, 0⟩ 1 7 "" [("k", MetaVal.unserializable)]).1
        = .error .metadataNotSerializable
      ∧ (set_balance ⟨[⟨1, 10, []⟩], [], 1, 0⟩ 1 7 "" [("k", MetaVal.unserializable)]).2.logsTable
        = (⟨[⟨1, 10, []⟩], [], 1, 0⟩ : BankState).logsTable
      ∧ accLogs (set_balance ⟨[⟨1, 10, []⟩], [], 1, 0⟩ 1 7 "" [("k", MetaVal.unserializable)]).2 1
        = accLogs ⟨[⟨1, 10, []⟩], [], 1, 0⟩ 1
      ∧ bal (set_balance ⟨[⟨1, 10, []⟩], [], 1, 0⟩ 1 7 "" [("k", MetaVal.unserializable)]).2 1
        = 7)
    ∧ ((deposit ⟨[⟨1, 10, []⟩], [], 1, 0⟩ 1 5 "" [("k", MetaVal.unserializable)]).1
        = .error .metadataNotSerializable
      ∧ (deposit ⟨[⟨1, 10, []⟩], [], 1, 0⟩ 1 5 "" [("k", MetaVal.unserializable)]).2.logsTable
        = (⟨[⟨1, 10, []⟩], [], 1, 0⟩ : BankState).logsTable
      ∧ accLogs (deposit ⟨[⟨1, 10, []⟩], [], 1, 0⟩ 1 5 "" [("k", MetaVal.unserializable)]).2 1
        = accLogs ⟨[⟨1, 10, []⟩], [], 1, 0⟩ 1
      ∧ bal (deposit ⟨[⟨1, 10, []⟩], [], 1, 0⟩ 1 5 "" [("k", MetaVal.unserializable)]).2 1
        = bal ⟨[⟨1, 10, []⟩], [], 1, 0⟩ 1 + 5)
    ∧ ((withdraw ⟨[⟨1, 10, []⟩], [], 1, 0⟩ 1 5 "" [("k", MetaVal.unserializable)]).1
        = .error .metadataNotSerializable
      ∧ (withdraw ⟨[⟨1, 10, []⟩], [], 1, 0⟩ 1 5 "" [("k", MetaVal.unserializable)]).2.logsTable
        = (⟨[⟨1, 10, []⟩], [], 1, 0⟩ : BankState).logsTable
      ∧ accLogs (withdraw ⟨[⟨1, 10, []⟩], [], 1, 0⟩ 1 5 "" [("k", MetaVal.unserializable)]).2 1
        = accLogs ⟨[⟨1, 10, []⟩], [], 1, 0⟩ 1
      ∧ bal (withdraw ⟨[⟨1, 10, []⟩], [], 1, 0⟩ 1 5 "" [("k", MetaVal.unserializable)]).2 1
        = bal ⟨[⟨1, 10, []⟩], [], 1, 0⟩ 1 - 5) :=
  ⟨(C6_metadata_not_serializable ⟨[⟨1, 10, []⟩], [], 1, 0⟩ 1 7 5 ""
      [("k", MetaVal.unserializable)] (by unfold sortedA; decide) (by rfl)).1 (by decide),
   (C6_metadata_not_serializable ⟨[⟨1, 10, []⟩], [], 1, 0⟩ 1 7 5 ""
      [("k", MetaVal.unserializable)] (by unfold sortedA; decide) (by rfl)).2.1 (by decide),
   (C6_metadata_not_serializable ⟨[⟨1, 10, []⟩], [], 1, 0⟩ 1 7 5 ""
      [("k", MetaVal.unserializable)] (by unfold sortedA; decide) (by rfl)).2.2
      (by decide) (by decide)⟩

theorem find?_delete_none (t : List BankLog) (logId : Nat) :
    (t.filter fun l => !(l.id == logId)).find? (fun l => l.id == logId) = none := by
  refine List.find?_eq_none.mpr fun x hx => ?_
  have h := List.of_mem_filter hx
  simp at h ⊢
  exact h

/-- C9 counterexample: after `delete()` the store-level lookup does fail with
LogNotFound, but the owning account's `fetch_log` still returns the log from the
in-memory list instead of failing — the claim's "any subsequent lookup fails" is
false. -/
theorem C9_delete_counterexample :
    get_bank_log
        (BankLog.delete ⟨[⟨1, 25, [⟨1, 1, 25, 0, []⟩]⟩], [⟨1, 1, 25, 0, []⟩], 2, 1⟩ 1) 1
        = .error .logNotFound
      ∧ fetch_log
          (BankLog.delete ⟨[⟨1, 25, [⟨1, 1, 25, 0, []⟩]⟩], [⟨1, 1, 25, 0, []⟩], 2, 1⟩ 1) 1 1
        = some ⟨1, 1, 25, 0, []⟩
      ∧ fetch_log
          (BankLog.delete ⟨[⟨1, 25, [⟨1, 1, 25, 0, []⟩]⟩], [⟨1, 1, 25, 0, []⟩], 2, 1⟩ 1) 1 1
        ≠ none :=
  ⟨rfl, rfl, by decide⟩

/-- C9 amended: `delete()` removes the log's row from the store, after which the
store-level lookup `_get_bank_log` fails with LogNotFound and no table row with
that id remains; but the account objects — including the in-memory log list that
`fetch_log` scans — are untouched, so `fetch_log` still returns the deleted
log. -/
theorem C9_delete_amended (st : BankState) (logId : Nat) (uid : Int) :
    get_bank_log (BankLog.delete st logId) logId = .error .logNotFound
      ∧ (∀ l ∈ (BankLog.delete st logId).logsTable, l.id ≠ logId)
      ∧ (BankLog.delete st logId).accounts = st.accounts
      ∧ fetch_log (BankLog.delete st logId) uid logId = fetch_log st uid logId := by
  refine ⟨?_, ?_, rfl, rfl⟩
  · unfold get_bank_log BankLog.delete
    rw [find?_delete_none]
  · intro l hl
    have h := List.of_mem_filter hl
    simpa using h

theorem mem_insertDesc {b x : AccountState} {l : List AccountState}
    (h : b ∈ insertDesc x l) : b = x ∨ b ∈ l := by
  induction l with
  | nil =>
    simp only [insertDesc, List.mem_singleton] at h
    left
    exact h
  | cons y ys ih =>
    unfold insertDesc at h
    by_cases hc : y.balance ≤ x.balance
    · rw [if_pos hc] at h
      rcases List.mem_cons.mp h with h | h
      · left; exact h
      · right; exact h
    · rw [if_neg hc] at h
      rcases List.mem_cons.mp h with h | h
      · right
        rw [h]
        exact List.mem_cons_self _ _
      · rcases ih h with h | h
        · left; exact h
        · right; exact List.mem_cons_of_mem _ h

theorem mem_sortDesc {b : AccountState} {l : List AccountState}
    (h : b ∈ sortDesc l) : b ∈ l := by
  induction l with
  | nil => simp [sortDesc] at h
  | cons x xs ih =>
    unfold sortDesc at h
    rcases mem_insertDesc h with h | h
    · rw [h]
      exact List.mem_cons_self _ _
    · exact List.mem_cons_of_mem _ (ih h)

theorem insertDesc_pairwise (x : AccountState) (l : List AccountState)
    (hl : l.Pairwise fun a b =>
      b.balance ≤ a.balance ∧ (a.balance = b.balance → a.user_id < b.user_id))
    (hx : ∀ y ∈ l, x.user_id < y.user_id) :
    (insertDesc x l).Pairwise fun a b =>
      b.balance ≤ a.balance ∧ (a.balance = b.balance → a.user_id < b.user_id) := by
  induction l with
  | nil => simp [insertDesc]
  | cons y ys ih =>
    rcases List.pairwise_cons.mp hl with ⟨hy, hys⟩
    unfold insertDesc
    by_cases hc : y.balance ≤ x.balance
    · rw [if_pos hc]
      refine List.pairwise_cons.mpr ⟨?_, hl⟩
      intro z hz
      rcases List.mem_cons.mp hz with h | h
      · subst h
        exact ⟨hc, fun _ => hx z (List.mem_cons_self _ _)⟩
      · exact ⟨le_trans (hy z h).1 hc, fun _ => hx z (List.mem_cons_of_mem _ h)⟩
    · rw [if_neg hc]
      push_neg at hc
      refine List.pairwise_cons.mpr
        ⟨?_, ih hys fun z hz => hx z (List.mem_cons_of_mem _ hz)⟩
      intro z hz
      rcases mem_insertDesc hz with h | h
      · subst h
        refine ⟨le_of_lt hc, fun he => ?_⟩
        exact absurd hc (by rw [he]; exact lt_irrefl _)
      · exact hy z h

theorem sortDesc_pairwise (l : List AccountState)
    (hs : l.Pairwise fun a b => a.user_id < b.user_id) :
    (sortDesc l).Pairwise fun a b =>
      b.balance ≤ a.balance ∧ (a.balance = b.balance → a.user_id < b.user_id) := by
  induction l with
  | nil => simp [sortDesc]
  | cons x xs ih =>
    rcases List.pairwise_cons.mp hs with ⟨hx, hxs⟩
    unfold sortDesc
    exact insertDesc_pairwise x (sortDesc xs) (ih hxs) fun y hy => hx y (mem_sortDesc hy)

/-- C7: on an accounts table in primary-key order (the order of the store scan),
the leaderboard returns at most `limit` accounts, with balances non-increasing,
and among equal balances the smaller owner id first — Python's stable sort keeps
the id-ascending scan order inside each balance class. -/
theorem C7_leaderboard_order (st : BankState) (limit : Nat)
    (hs : sortedA st.accounts) :
    (get_leaderboard st limit).length ≤ limit
      ∧ (get_leaderboard st limit).Pairwise (fun a b => b.balance ≤ a.balance)
      ∧ (get_leaderboard st limit).Pairwise
          (fun a b => a.balance = b.balance → a.user_id < b.user_id) := by
  have hmain := sortDesc_pairwise st.accounts hs
  have htake : (get_leaderboard st limit).Pairwise fun a b =>
      b.balance ≤ a.balance ∧ (a.balance = b.balance → a.user_id < b.user_id) := by
    unfold get_leaderboard
    exact List.Pairwise.sublist (List.take_sublist _ _) hmain
  refine ⟨?_, htake.imp fun h => h.1, htake.imp fun h => h.2⟩
  unfold get_leaderboard
  rw [List.length_take]
  exact min_le_left _ _

/-- C7 witness: a bank with balances 10, 10, 5 on owners 1, 2, 3; the top-2
leaderboard satisfies all three ordering properties. -/
theorem C7_leaderboard_order_witness :
    (get_leaderboard ⟨[⟨1, 10, []⟩, ⟨2, 10, []⟩, ⟨3, 5, []⟩], [], 1, 0⟩ 2).length ≤ 2
      ∧ (get_leaderboard ⟨[⟨1, 10, []⟩, ⟨2, 10, []⟩, ⟨3, 5, []⟩], [], 1, 0⟩ 2).Pairwise
          (fun a b => b.balance ≤ a.balance)
      ∧ (get_leaderboard ⟨[⟨1, 10, []⟩, ⟨2, 10, []⟩, ⟨3, 5, []⟩], [], 1, 0⟩ 2).Pairwise
          (fun a b => a.balance = b.balance → a.user_id < b.user_id) :=
  C7_leaderboard_order ⟨[⟨1, 10, []⟩, ⟨2, 10, []⟩, ⟨3, 5, []⟩], [], 1, 0⟩ 2
    (by unfold sortedA; decide)

theorem idxOfAcct_spec (l : List AccountState) (a : AccountState)
    (h : memAcct l a = true) :
    ∃ b, l[idxOfAcct l a]? = some b ∧ acctEqb b a = true
      ∧ ∀ j < idxOfAcct l a, ∀ c, l[j]? = some c → acctEqb c a = false := by
  induction l with
  | nil => simp [memAcct] at h
  | cons b0 rest ih =>
    by_cases h0 : acctEqb b0 a = true
    · have hidx : idxOfAcct (b0 :: rest) a = 0 := by
        simp [idxOfAcct, h0]
      refine ⟨b0, ?_, h0, ?_⟩
      · rw [hidx]
        simp
      · intro j hj c hc
        rw [hidx] at hj
        omega
    · have h0f : acctEqb b0 a = false := Bool.eq_false_iff.mpr h0
      have hrest : memAcct rest a = true := by
        unfold memAcct at h ⊢
        rw [List.any_cons, h0f] at h
        simpa using h
      obtain ⟨b, hb1, hb2, hb3⟩ := ih hrest
      have hidx : idxOfAcct (b0 :: rest) a = idxOfAcct rest a + 1 := by
        simp [idxOfAcct, h0f]
      refine ⟨b, ?_, hb2, ?_⟩
      · rw [hidx]
        simpa using hb1
      · intro j hj c hc
        rw [hidx] at hj
        cases j with
        | zero =>
          have hcb : c = b0 := by
            simpa using hc.symm
          rw [hcb]
          exact h0f
        | succ j2 =>
          have hj2 : j2 < idxOfAcct rest a := by omega
          have hc2 : rest[j2]? = some c := by simpa using hc
          exact hb3 j2 hj2 c hc2

/-- C8: when the queried account occurs (under the source's account equality:
same owner, same balance) in the full descending-balance ordering, `rank` is its
1-based position there (first matching index); when it does not occur, `rank`
returns the total account count. -/
theorem C8_rank_spec (st : BankState) (acct : AccountState) :
    (memAcct (sortDesc st.accounts) acct = true →
        ∃ i b, (sortDesc st.accounts)[i]? = some b ∧ acctEqb b acct = true
          ∧ get_account_rank st acct = i + 1
          ∧ ∀ j < i, ∀ c, (sortDesc st.accounts)[j]? = some c → acctEqb c acct = false)
      ∧ (memAcct (sortDesc st.accounts) acct = false →
          get_account_rank st acct = st.accounts.length) := by
  constructor
  · intro h
    obtain ⟨b, hb1, hb2, hb3⟩ := idxOfAcct_spec _ _ h
    refine ⟨idxOfAcct (sortDesc st.accounts) acct, b, hb1, hb2, ?_, hb3⟩
    show (if memAcct (sortDesc st.accounts) acct
      then idxOfAcct (sortDesc st.accounts) acct + 1 else accounts_count st) = _
    rw [if_pos h]
  · intro h
    show (if memAcct (sortDesc st.accounts) acct
      then idxOfAcct (sortDesc st.accounts) acct + 1 else accounts_count st) = _
    rw [if_neg (by simp [h])]
    rfl

/-- C8 witness: in a bank with owners 1 (balance 5) and 2 (balance 9), the
account (1, 5) has rank 2 in the descending ordering, and a stale handle (1, 7)
is absent and gets the account count 2. -/
theorem C8_rank_spec_witness :
    (∃ i b, (sortDesc (⟨[⟨1, 5, []⟩, ⟨2, 9, []⟩], [], 1, 0⟩ : BankState).accounts)[i]?
          = some b
        ∧ acctEqb b ⟨1, 5, []⟩ = true
        ∧ get_account_rank ⟨[⟨1, 5, []⟩, ⟨2, 9, []⟩], [], 1, 0⟩ ⟨1, 5, []⟩ = i + 1
        ∧ ∀ j < i, ∀ c,
            (sortDesc (⟨[⟨1, 5, []⟩, ⟨2, 9, []⟩], [], 1, 0⟩ : BankState).accounts)[j]?
              = some c → acctEqb c ⟨1, 5, []⟩ = false)
      ∧ get_account_rank ⟨[⟨1, 5, []⟩, ⟨2, 9, []⟩], [], 1, 0⟩ ⟨1, 7, []⟩
        = (⟨[⟨1, 5, []⟩, ⟨2, 9, []⟩], [], 1, 0⟩ : BankState).accounts.length :=
  ⟨(C8_rank_spec ⟨[⟨1, 5, []⟩, ⟨2, 9, []⟩], [], 1, 0⟩ ⟨1, 5, []⟩).1 (by rfl),
   (C8_rank_spec ⟨[⟨1, 5, []⟩, ⟨2, 9, []⟩], [], 1, 0⟩ ⟨1, 7, []⟩).2 (by rfl)⟩

end Bankio
